import Mathlib

/-!
Verification development for the crypto news Telegram bot
(`src/crypto_bot.py`).  The Python functions `get_current_prices`,
`format_price_change`, `fetch_news`, `generate_full_analysis`,
`generate_coin_analysis` and `send_scheduled_news` are shallowly embedded
as executable Lean definitions.  Conventions used throughout:

* Timestamps (`datetime` values) are modelled as integers counting seconds
  since the Unix epoch (all datetimes in the script are naive timestamps;
  arithmetic such as `timedelta(hours=24)` becomes integer arithmetic).
* JSON numbers / Python floats are modelled as exact decimals
  (`DecNum`, a mantissa together with a power-of-ten exponent), which is
  the value a JSON literal denotes; `str()` and `format(x, '.2f')` are
  reimplemented on this representation.
* Each network interaction is a parameter of the embedded function: a
  constructor `fail` stands for "the request raised an exception or timed
  out", and `resp status payload` for a completed HTTP response.
* A caught Python exception inside a `try` block is modelled by the
  surrounding computation returning `none` / stopping early, exactly
  mirroring which statements had already executed (in particular, items
  already appended to a list before the exception survive).
* Python's `list.sort(key=..., reverse=True)` is a stable descending
  sort; it is embedded as `List.insertionSort` with the corresponding
  total preorder, which is stable with respect to it.
-/

/-! ### Digit and number rendering helpers -/

/-- The decimal digit character for `d < 10` (used by the embedded
rendering of Python's `str` on integers). -/
def digitChar (d : Nat) : Char :=
  if d = 0 then '0' else if d = 1 then '1' else if d = 2 then '2'
  else if d = 3 then '3' else if d = 4 then '4' else if d = 5 then '5'
  else if d = 6 then '6' else if d = 7 then '7' else if d = 8 then '8'
  else if d = 9 then '9' else '?'

/-- Accumulator loop producing the decimal digits of `n` in order; the
fuel argument only bounds the recursion depth (structural recursion so
that the kernel can evaluate it). -/
def natStrGo : Nat → Nat → List Char → List Char
  | 0, _, acc => acc
  | fuel + 1, n, acc =>
    if n < 10 then digitChar n :: acc
    else natStrGo fuel (n / 10) (digitChar (n % 10) :: acc)

/-- Python `str` of a nonnegative integer. -/
def natStr (n : Nat) : String := ⟨natStrGo (n + 1) n []⟩

/-- Python `str` of an integer (a leading minus sign when negative). -/
def intStr (i : Int) : String :=
  if i < 0 then "-" ++ natStr i.natAbs else natStr i.natAbs

/-- Zero-padded two-digit rendering (`strftime` `%d`/`%m` fields). -/
def pad2 (n : Nat) : String := if n < 10 then "0" ++ natStr n else natStr n

/-- Zero-padded four-digit rendering (`strftime` `%Y` field). -/
def pad4 (n : Nat) : String :=
  if n < 10 then "000" ++ natStr n
  else if n < 100 then "00" ++ natStr n
  else if n < 1000 then "0" ++ natStr n
  else natStr n

/-- Exact-decimal model of a Python/JSON float: the value
`mant / 10 ^ exp`.  JSON numbers are decimal literals, so every value
flowing through the script's data path is of this form. -/
structure DecNum where
  mant : Int
  exp : Nat
deriving DecidableEq, Repr

/-- Strip trailing zero decimals: auxiliary normalisation used when
rendering a float the way Python's `str` does. -/
def decNormGo : Int → Nat → DecNum
  | m, 0 => ⟨m, 0⟩
  | m, e + 1 => if m % 10 = 0 then decNormGo (m / 10) e else ⟨m, e + 1⟩

/-- Sign, integer digits and fractional digits of a `DecNum` after
normalisation (Python always prints at least one fractional digit for a
float, hence the `['0']` case). -/
def decSplit (x : DecNum) : Bool × List Char × List Char :=
  let n := decNormGo x.mant x.exp
  let mag := natStrGo (n.mant.natAbs + 1) n.mant.natAbs []
  let mag := if mag.length ≤ n.exp then List.replicate (n.exp + 1 - mag.length) '0' ++ mag else mag
  (n.mant < 0, mag.take (mag.length - n.exp),
    if n.exp = 0 then ['0'] else mag.drop (mag.length - n.exp))

/-- Python `str(x)` for a float written as a short decimal literal
(e.g. `1.5 ↦ "1.5"`, `42.0 ↦ "42.0"`, `-0.25 ↦ "-0.25"`). -/
def pyFloatStr (x : DecNum) : String :=
  let s := decSplit x
  (if s.1 then "-" else "") ++ ⟨s.2.1⟩ ++ "." ++ ⟨s.2.2⟩

/-- Insert thousands separators into a digit list, as Python's `,`
format specifier does for the integer part. -/
def commaRev : List Char → Nat → List Char
  | [], _ => []
  | [c], _ => [c]
  | c :: c2 :: cs, k =>
    if (k + 1) % 3 = 0 then c :: ',' :: commaRev (c2 :: cs) (k + 1)
    else c :: commaRev (c2 :: cs) (k + 1)

/-- Digit grouping for the integer part (`f"{x:,}"`). -/
def commaGroup (s : List Char) : List Char := (commaRev s.reverse 0).reverse

/-- Python `f"{x:,}"` for a float: like `str` but with the integer part
grouped by thousands. -/
def pyFloatStrComma (x : DecNum) : String :=
  let s := decSplit x
  (if s.1 then "-" else "") ++ ⟨commaGroup s.2.1⟩ ++ "." ++ ⟨s.2.2⟩

/-- Round `mag / 10 ^ e` to hundredths (round-half-to-even, as float
formatting does at representable midpoints), returning the number of
hundredths. -/
def round2 (mag : Nat) (e : Nat) : Nat :=
  let n := mag * 100
  let d := 10 ^ e
  let q := n / d
  let r := n % d
  if 2 * r < d then q else if d < 2 * r then q + 1
  else if q % 2 = 0 then q else q + 1

/-- Python `f"{x:.2f}"` on the exact-decimal model. -/
def fmt2f (x : DecNum) : String :=
  let c := round2 x.mant.natAbs x.exp
  (if x.mant < 0 then "-" else "") ++ natStr (c / 100) ++ "." ++ pad2 (c % 100)

/-- Absolute value (Python `abs`). -/
def decAbs (x : DecNum) : DecNum := ⟨(x.mant.natAbs : Int), x.exp⟩

/-- A Python value sitting in a JSON-derived field that is either a
number or a string (e.g. the `price` field, which is a float on success
and the string `"N/A"` in the fallback mapping). -/
inductive JVal where
  | num (v : DecNum)
  | str (s : String)
deriving DecidableEq, Repr

/-- Python `str()` / f-string interpolation of such a value. -/
def jvalStr : JVal → String
  | .num v => pyFloatStr v
  | .str s => s

/-! ### Calendar rendering (`strftime`) -/

/-- Convert a count of days since 1970-01-01 to a civil `(year, month,
day)` triple (standard Gregorian algorithm). -/
def civilFromDays (z : Int) : Int × Nat × Nat :=
  let z2 := z + 719468
  let era := z2.fdiv 146097
  let doe := (z2 - era * 146097).toNat
  let yoe := (doe - doe / 1460 + doe / 36524 - doe / 146096) / 365
  let y := (yoe : Int) + era * 400
  let doy := doe - (365 * yoe + yoe / 4 - yoe / 100)
  let mp := (5 * doy + 2) / 153
  let d := doy - (153 * mp + 2) / 5 + 1
  let m := if mp < 10 then mp + 3 else mp - 9
  (if m ≤ 2 then y + 1 else y, m, d)

/-- English month name (`strftime` `%B` under the default C locale). -/
def monthName : Nat → String
  | 1 => "January"
  | 2 => "February"
  | 3 => "March"
  | 4 => "April"
  | 5 => "May"
  | 6 => "June"
  | 7 => "July"
  | 8 => "August"
  | 9 => "September"
  | 10 => "October"
  | 11 => "November"
  | 12 => "December"
  | _ => "?"

/-- `strftime('%d.%m.%Y')` of a timestamp. -/
def dateDMY (t : Int) : String :=
  let c := civilFromDays (t.fdiv 86400)
  pad2 c.2.2 ++ "." ++ pad2 c.2.1 ++ "." ++ pad4 c.1.toNat

/-- `strftime('%d %B %Y')` of a timestamp. -/
def dateDBY (t : Int) : String :=
  let c := civilFromDays (t.fdiv 86400)
  pad2 c.2.2 ++ " " ++ monthName c.2.1 ++ " " ++ pad4 c.1.toNat

/-! ### Substring machinery (Python's `in` on strings) -/

/-- Boolean test: the first list is a prefix of the second. -/
def listPre : List Char → List Char → Bool
  | [], _ => true
  | _ :: _, [] => false
  | c :: cs, d :: ds => c == d && listPre cs ds

/-- Boolean test: the first list occurs as a contiguous sublist of the
second (Python's `needle in hay` on strings). -/
def listSub : List Char → List Char → Bool
  | n, [] => n.isEmpty
  | n, d :: t => listPre n (d :: t) || listSub n t

/-- String-level containment test (`pat in hay` in Python). -/
def containsSub (hay pat : String) : Bool := listSub pat.data hay.data

/-- ASCII lower-casing of one character (Python `str.lower` restricted
to the ASCII range, which covers every symbol name compared by the
script). -/
def lowerChar (c : Char) : Char :=
  if 'A' ≤ c ∧ c ≤ 'Z' then Char.ofNat (c.toNat + 32) else c

/-- ASCII `str.lower`. -/
def lowerStr (s : String) : String := ⟨s.data.map lowerChar⟩

/-- Right-fold string concatenation; the Python loops build the same
string by repeated `+=`, which differs only by associativity. -/
def strJoin : List String → String
  | [] => ""
  | s :: r => s ++ strJoin r

/-- Enumerate a list starting from a given index (Python
`enumerate(l, 1)`). -/
def enumFrom1 {α : Type} : Nat → List α → List (Nat × α)
  | _, [] => []
  | i, a :: as => (i, a) :: enumFrom1 (i + 1) as

/-! ### Price Fetcher (`get_current_prices`, lines 38-80) -/

/-- The configured symbols (`SUPPORTED_COINS` in the source). -/
def SUPPORTED_COINS : List String := ["BTC", "ETH", "SOL", "TON", "XLM", "BNB", "LTC"]

/-- The provider-id to display-symbol map (`coin_mapping` in the
source). -/
def coin_mapping : List (String × String) :=
  [("bitcoin", "BTC"), ("ethereum", "ETH"), ("solana", "SOL"), ("toncoin", "TON"),
   ("stellar", "XLM"), ("binancecoin", "BNB"), ("litecoin", "LTC")]

/-- One per-coin object of the market-data JSON response; each expected
field may be absent (`coin_data["usd"]` raises `KeyError` when `usd` is
absent, `coin_data.get("usd_24h_change", 0)` tolerates absence). -/
structure CoinEntry where
  usd : Option DecNum
  usd_24h_change : Option DecNum
deriving DecidableEq, Repr

/-- Outcome of the market-data request: `fail` models a raised
exception (connection error, timeout, unparseable JSON body), `resp`
models a completed HTTP response whose JSON body is the given ordered
association list. -/
inductive PriceResp where
  | fail
  | resp (status : Nat) (data : List (String × CoinEntry))
deriving DecidableEq, Repr

/-- A `symbol ↦ 'price'/'change'` entry of the returned mapping. -/
structure PriceQuote where
  price : JVal
  change : DecNum
deriving DecidableEq, Repr

/-- The `for coin_id, coin_data in data.items()` loop of
`get_current_prices`: builds the result mapping; `none` models the
`KeyError` raised by `coin_data["usd"]`, which aborts the loop and is
caught by the surrounding `except`. -/
def buildPrices : List (String × CoinEntry) → List (String × PriceQuote) →
    Option (List (String × PriceQuote))
  | [], acc => some acc
  | (cid, cd) :: rest, acc =>
    match coin_mapping.lookup cid with
    | none => buildPrices rest acc
    | some sym =>
      match cd.usd with
      | none => none
      | some p => buildPrices rest (acc ++ [(sym, ⟨.num p, cd.usd_24h_change.getD ⟨0, 0⟩⟩)])

/-- The fallback mapping returned on any failure: every supported coin
maps to price `"N/A"` with change `0`. -/
def fallbackPrices : List (String × PriceQuote) :=
  SUPPORTED_COINS.map (fun c => (c, ⟨.str "N/A", ⟨0, 0⟩⟩))

/-- `get_current_prices` (lines 38-80): on a 200 response the mapped
coins are collected (a missing `usd` field raises and falls through to
the fallback); on a non-200 status the `try` block completes without
returning and the fallback is returned; on an exception the fallback is
returned. -/
def get_current_prices : PriceResp → List (String × PriceQuote)
  | .fail => fallbackPrices
  | .resp status data =>
    if status = 200 then
      match buildPrices data [] with
      | some r => r
      | none => fallbackPrices
    else fallbackPrices

/-- `format_price_change` (lines 82-87). -/
def format_price_change : JVal → String
  | .num v => (if 0 ≤ v.mant then "📈" else "📉") ++ " " ++ fmt2f (decAbs v) ++ "%"
  | .str _ => ""

/-! ### News Aggregator (`fetch_news`, lines 89-137) -/

/-- A normalized news item (`{title, link, source, published}`; the
opaque `votes` map attached to aggregator items is never read by the
program and is omitted). -/
structure NewsItem where
  title : String
  link : String
  source : String
  published : Int
deriving DecidableEq, Repr

/-- One element of the aggregator API's `results` list.  `published_at`
is the parsed timestamp: `none` models both a missing key and a string
`datetime.fromisoformat` cannot parse (both raise); `title`/`url` are
`none` when the key is missing (access raises `KeyError`). -/
structure CPPost where
  published_at : Option Int
  title : Option String
  url : Option String
deriving DecidableEq, Repr

/-- Outcome of the aggregator-API request. -/
inductive CPResp where
  | fail
  | resp (status : Nat) (results : List CPPost)
deriving DecidableEq, Repr

/-- The `for post in data.get("results", [])` loop: a raised exception
(missing/unparsable field) aborts the loop, keeping the items appended
so far — the whole loop body sits inside one `try` block. -/
def cpCollect (t : Int) : List CPPost → List NewsItem → List NewsItem
  | [], acc => acc
  | p :: ps, acc =>
    match p.published_at with
    | none => acc
    | some pub =>
      if t ≤ pub then
        match p.title, p.url with
        | some ti, some u => cpCollect t ps (acc ++ [⟨ti, u, "CryptoPanic", pub⟩])
        | _, _ => acc
      else cpCollect t ps acc

/-- Items contributed by the aggregator API (lines 95-112): nothing on
exception or non-200 status. -/
def cpNews (t : Int) : CPResp → List NewsItem
  | .fail => []
  | .resp s posts => if s = 200 then cpCollect t posts [] else []

/-- One RSS entry; `published_parsed` is `none` when the feed entry has
no parsed publish date (`"published_parsed" in entry` is false). -/
structure RSSEntry where
  published_parsed : Option Int
  title : String
  link : String
deriving DecidableEq, Repr

/-- Outcome of one RSS feed request. -/
inductive RSSResp where
  | fail
  | resp (status : Nat) (entries : List RSSEntry)
deriving DecidableEq, Repr

/-- The `for entry in feed.entries` loop (lines 122-131): entries with
no parsed date are skipped, dated entries are kept iff they lie in the
24-hour window. -/
def rssCollect (name : String) (t : Int) : List RSSEntry → List NewsItem → List NewsItem
  | [], acc => acc
  | e :: es, acc =>
    match e.published_parsed with
    | none => rssCollect name t es acc
    | some pub =>
      if t ≤ pub then rssCollect name t es (acc ++ [⟨e.title, e.link, name, pub⟩])
      else rssCollect name t es acc

/-- Processing of one RSS source (lines 115-133): its own `try` block
isolates a failure, contributing no items. -/
def rssStep (t : Int) (acc : List NewsItem) (feed : String × RSSResp) : List NewsItem :=
  match feed.2 with
  | .fail => acc
  | .resp s entries => if s = 200 then rssCollect feed.1 t entries acc else acc

/-- The combined (unsorted) news list after both collection phases. -/
def collectNews (now : Int) (cp : CPResp) (feeds : List (String × RSSResp)) : List NewsItem :=
  feeds.foldl (rssStep (now - 86400)) (cpNews (now - 86400) cp)

/-- Descending order on publish time, the comparison used by
`news.sort(key=lambda x: x["published"], reverse=True)`. -/
def pubDesc (a b : NewsItem) : Prop := b.published ≤ a.published

instance : DecidableRel pubDesc := fun a b => Int.decLe b.published a.published

instance : IsTotal NewsItem pubDesc := ⟨fun a b => Int.le_total b.published a.published⟩

instance : IsTrans NewsItem pubDesc := ⟨fun _ _ _ h1 h2 => Int.le_trans h2 h1⟩

/-- The names of the configured RSS sources, in iteration order
(`SOURCES` minus `CryptoPanic`). -/
def RSS_SOURCES : List String := ["CoinDesk", "CoinTelegraph", "Decrypt", "Binance", "Coinbase"]

/-- `fetch_news` (lines 89-137): collect from all sources, stable-sort
descending by publish time, truncate to 20.  `now` is the
`datetime.utcnow()` captured at the start of the call; the network
outcome of each source is a parameter. -/
def fetch_news (now : Int) (cp : CPResp) (feeds : List (String × RSSResp)) : List NewsItem :=
  (List.insertionSort pubDesc (collectNews now cp feeds)).take 20

/-! ### Narrative generators (lines 168-300) -/

/-- `int(time_diff.total_seconds() // 3600)`: whole hours elapsed since
publication (floor division, as in Python). -/
def hoursAgo (nowUtc pub : Int) : Int := (nowUtc - pub).fdiv 3600

/-- The relative-or-absolute time label of a digest line: an
hours-ago label when fewer than 24 whole hours have elapsed, otherwise
`strftime('%d.%m.%Y')`. -/
def timeLabel (nowUtc pub : Int) : String :=
  if hoursAgo nowUtc pub < 24 then intStr (hoursAgo nowUtc pub) ++ " ч. назад"
  else dateDMY pub

/-- One numbered digest line
(`f"{i}. [{title}]({link}) ({source} - {time_info})\n"`). -/
def newsLine (nowUtc : Int) (i : Nat) (it : NewsItem) : String :=
  natStr i ++ ". [" ++ it.title ++ "](" ++ it.link ++ ") (" ++ it.source ++ " - " ++
    timeLabel nowUtc it.published ++ ")\n"

/-- The concatenated digest lines for `enumerate(items, 1)`. -/
def digestLines (nowUtc : Int) (items : List NewsItem) : String :=
  strJoin ((enumFrom1 1 items).map (fun z => newsLine nowUtc z.1 z.2))

/-- The news context block of `generate_full_analysis`
(lines 182-188): header plus one line per item of `news[:10]`. -/
def newsContext (nowUtc : Int) (news : List NewsItem) : String :=
  "📰 *Свежие новости за последние 24 часа:*\n\n" ++ digestLines nowUtc (news.take 10)

/-- One price line of the 24h-report prompt
(`f"- BTC: ${price} (изменение: {change:.2f}%)\n"`): note that the price
is interpolated with plain `str`, only the change is `:.2f`-formatted. -/
def promptPriceLine (sym : String) (q : PriceQuote) : String :=
  "- " ++ sym ++ ": $" ++ jvalStr q.price ++ " (изменение: " ++ fmt2f q.change ++ "%)\n"

/-- The text of the prompt rendered by `generate_full_analysis`
(lines 191-207) once the three tracked quotes have been looked up.
`nowLocal` is `datetime.now()` (used for the current date), `nowUtc` is
`datetime.utcnow()` (used for the hours-ago labels). -/
def promptFullBody (nowLocal nowUtc : Int) (b e s : PriceQuote)
    (news : List NewsItem) : String :=
  "Ты профессиональный криптоаналитик. Сегодня " ++ dateDBY nowLocal ++ ". " ++
  "Актуальные цены на основные криптоактивы:\n" ++
  promptPriceLine "BTC" b ++
  promptPriceLine "ETH" e ++
  promptPriceLine "SOL" s ++ "\n" ++
  "Проанализируй САМЫЕ СВЕЖИЕ новости и дай краткий отчет ТОЛЬКО на основе последних 24 часов:\n\n" ++
  newsContext nowUtc news ++ "\n\n" ++
  "Структура отчета (максимум 300 слов):\n" ++
  "1. Основные рыночные тренды (на основе последних новостей)\n" ++
  "2. Влияние на BTC, ETH, SOL (с использованием реальных цен)\n" ++
  "3. Прогноз на ближайшие 24 часа (с учетом текущей ситуации)\n" ++
  "4. Торговые рекомендации (практические советы)\n\n" ++
  "Используй профессиональную лексику. Будь кратким и информативным. " ++
  "НЕ ИСПОЛЬЗУЙ устаревшие данные или исторические примеры старше 2024 года. " ++
  "Все цены и прогнозы должны соответствовать текущей рыночной ситуации."

/-- The prompt rendered by `generate_full_analysis`: `none` models the
`KeyError` raised when the price mapping lacks one of the three tracked
symbols (the f-string evaluates `prices['BTC']` etc.). -/
def promptFull (nowLocal nowUtc : Int) (prices : List (String × PriceQuote))
    (news : List NewsItem) : Option String :=
  match prices.lookup "BTC", prices.lookup "ETH", prices.lookup "SOL" with
  | some b, some e, some s => some (promptFullBody nowLocal nowUtc b e s news)
  | _, _, _ => none

/-- One line of the price block shared by the generators and the
scheduler (`f"- {asset}: {price} {change}\n"` with comma-grouped price
formatting for numeric prices). -/
def priceEntryLine (asset : String) (q : PriceQuote) : String :=
  "- " ++ asset ++ ": " ++
    (match q.price with
     | .num v => "$" ++ pyFloatStrComma v
     | .str s => s) ++ " " ++ format_price_change (.num q.change) ++ "\n"

/-- The rendered price block (lines 175-179 and the identical loops at
lines 219-223 and 508-512). -/
def priceBlock (prices : List (String × PriceQuote)) : String :=
  "💰 *Актуальные цены:*\n" ++ strJoin (prices.map (fun z => priceEntryLine z.1 z.2))

/-- `generate_full_analysis` (lines 168-209), with the text-generation
response abstracted as the parameter `llm`: returns the price block
followed by the model output; `none` models the `KeyError` on a price
mapping missing a tracked symbol while rendering the prompt. -/
def generate_full_analysis (nowLocal nowUtc : Int) (prices : List (String × PriceQuote))
    (news : List NewsItem) (llm : String) : Option String :=
  match promptFull nowLocal nowUtc prices news with
  | some _ => some (priceBlock prices ++ "\n" ++ llm)
  | none => none

/-- Case-insensitive title filter of `generate_coin_analysis`
(`coin.lower() in item['title'].lower()`). -/
def titleMentions (coin : String) (it : NewsItem) : Bool :=
  listSub (lowerStr coin).data (lowerStr it.title).data

/-- The coin-filtered news list (`coin_news`, line 260). -/
def coinNewsOf (coin : String) (news : List NewsItem) : List NewsItem :=
  news.filter (titleMentions coin)

/-- The news context block of `generate_coin_analysis`
(lines 263-276). -/
def coinContext (nowUtc : Int) (coin : String) (news : List NewsItem) : String :=
  "📰 *Свежие новости по " ++ coin ++ ":*\n\n" ++
    (if coinNewsOf coin news = [] then "Новостей по этой валюте за последние 24 часа не найдено.\n"
     else digestLines nowUtc ((coinNewsOf coin news).take 5))

/-- The quote used for the selected coin
(`prices.get(coin, {"price": "N/A", "change": 0})`). -/
def coinQuoteOf (prices : List (String × PriceQuote)) (coin : String) : PriceQuote :=
  (prices.lookup coin).getD ⟨.str "N/A", ⟨0, 0⟩⟩

/-- The rendered price of the selected coin (line 255). -/
def coinPriceStr (q : PriceQuote) : String :=
  match q.price with
  | .num v => "$" ++ pyFloatStrComma v
  | .str s => s

/-- The prompt rendered by `generate_coin_analysis` (lines 279-290). -/
def promptCoin (nowLocal nowUtc : Int) (coin : String) (prices : List (String × PriceQuote))
    (news : List NewsItem) : String :=
  "Ты профессиональный криптоаналитик. Сегодня " ++ dateDBY nowLocal ++ ". " ++
  "Текущая цена " ++ coin ++ ": " ++ coinPriceStr (coinQuoteOf prices coin) ++
  " (изменение за 24ч: " ++ fmt2f (coinQuoteOf prices coin).change ++ "%)\n\n" ++
  "Проанализируй новости, связанные с " ++ coin ++
  ", и сделай прогноз на ближайшую неделю (" ++ dateDBY nowLocal ++ " - " ++
  dateDBY (nowLocal + 7 * 86400) ++ ").\n\n" ++
  coinContext nowUtc coin news ++ "\n\n" ++
  "Структура отчета (максимум 300 слов):\n" ++
  "1. Ключевые события, влияющие на цену\n" ++
  "2. Технический анализ (тренды, уровни поддержки/сопротивления)\n" ++
  "3. Прогноз цены на неделю\n" ++
  "4. Рекомендации для трейдеров\n\n" ++
  "Будь конкретным и информативным. Используй только актуальные данные."

/-- The appended sources list (lines 295-298). -/
def sourcesBlock (links : List String) : String :=
  "\n\n🔍 *Источники новостей:*\n" ++
    strJoin ((enumFrom1 1 (links.take 5)).map
      (fun z => natStr z.1 ++ ". [Статья " ++ natStr z.1 ++ "](" ++ z.2 ++ ")\n"))

/-- `generate_coin_analysis` (lines 246-300), with the text-generation
response abstracted as `llm`: the coin price block, a blank line, the
model output, and — when coin-related links were collected — the sources
list. -/
def generate_coin_analysis (_nowLocal _nowUtc : Int) (coin : String)
    (prices : List (String × PriceQuote)) (news : List NewsItem) (llm : String) : String :=
  let q := coinQuoteOf prices coin
  let links := ((coinNewsOf coin news).take 5).map NewsItem.link
  "💰 *Текущая цена " ++ coin ++ ":* " ++ coinPriceStr q ++ " " ++
    format_price_change (.num q.change) ++ "\n" ++ "\n" ++
    (llm ++ (if links = [] then "" else sourcesBlock links))

/-! ### Digest Scheduler (`send_scheduled_news`, lines 491-539) -/

/-- The local hour under the fixed UTC+1 offset
(`(datetime.utcnow() + timedelta(hours=1)).hour`). -/
def localHourOf (nowUtc : Int) : Int := ((nowUtc + 3600).fdiv 3600) % 24

/-- The 4-hour hot filter (line 501):
`(utcnow - published).total_seconds() < 14400`. -/
def hotFilter (nowUtc : Int) (news : List NewsItem) : List NewsItem :=
  news.filter (fun n => nowUtc - n.published < 14400)

/-- One line of the scheduled digest (lines 516-526), with
minute-granularity labels. -/
def digestItemLine (nowUtc : Int) (i : Nat) (it : NewsItem) : String :=
  let diff := nowUtc - it.published
  let h := diff.fdiv 3600
  let m := (diff % 3600).fdiv 60
  let info := if 0 < h then intStr h ++ " ч. " ++ intStr m ++ " мин. назад"
              else intStr m ++ " мин. назад"
  natStr i ++ ". [" ++ it.title ++ "](" ++ it.link ++ ") \n⌚ " ++ info ++ " | " ++
    it.source ++ "\n\n"

/-- The text of the scheduled digest message (lines 515-529). -/
def digestMessage (nowUtc : Int) (hot3 : List NewsItem)
    (prices : List (String × PriceQuote)) : String :=
  "🔥 *СВЕЖИЕ НОВОСТИ ЗА ПОСЛЕДНИЕ 4 ЧАСА:*\n\n" ++
    strJoin ((enumFrom1 1 hot3).map (fun z => digestItemLine nowUtc z.1 z.2)) ++
    "\n" ++ priceBlock prices

/-- An outbound chat message of one scheduler tick, recording both the
items rendered into it and its full text. -/
structure Outbound where
  items : List NewsItem
  text : String
deriving DecidableEq, Repr

/-- `send_scheduled_news` (lines 491-539): the list of messages sent by
one tick.  Outside the 07:00-21:00 local window, or with no item newer
than four hours, the tick sends nothing; otherwise it sends exactly one
message built from the first three hot items.  The whole body is wrapped
in `try/except`, so the embedded function is total and a tick never
raises. -/
def send_scheduled_news (nowUtc : Int) (cp : CPResp) (feeds : List (String × RSSResp))
    (pr : PriceResp) : List Outbound :=
  if 7 ≤ localHourOf nowUtc ∧ localHourOf nowUtc ≤ 21 then
    let hot := hotFilter nowUtc (fetch_news nowUtc cp feeds)
    if hot = [] then []
    else [⟨hot.take 3, digestMessage nowUtc (hot.take 3) (get_current_prices pr)⟩]
  else []

/-! ### General lemmas about the helper functions -/

theorem strEq_of_data {a b : String} (h : a.data = b.data) : a = b := by
  cases a; cases b; exact congrArg String.mk h

theorem strAppend_assoc (a b c : String) : a ++ b ++ c = a ++ (b ++ c) :=
  strEq_of_data (by simp [String.data_append])

theorem listPre_iff (n h : List Char) : listPre n h = true ↔ ∃ b, h = n ++ b := by
  induction n generalizing h with
  | nil => simp [listPre]
  | cons c cs ih =>
    cases h with
    | nil =>
      simp [listPre]
    | cons d ds =>
      simp only [listPre, Bool.and_eq_true, beq_iff_eq, ih, List.cons_append, List.cons.injEq]
      constructor
      · rintro ⟨rfl, b, rfl⟩
        exact ⟨b, rfl, rfl⟩
      · rintro ⟨b, rfl, rfl⟩
        exact ⟨rfl, b, rfl⟩

theorem listSub_iff (n h : List Char) : listSub n h = true ↔ ∃ a b, h = a ++ n ++ b := by
  induction h with
  | nil =>
    simp only [listSub, List.isEmpty_iff]
    constructor
    · rintro rfl
      exact ⟨[], [], rfl⟩
    · rintro ⟨a, b, hab⟩
      rcases List.append_eq_nil.1 (List.append_eq_nil.1 hab.symm).1 with ⟨-, h2⟩
      exact h2
  | cons d ds ih =>
    simp only [listSub, Bool.or_eq_true, listPre_iff, ih]
    constructor
    · rintro (⟨b, hb⟩ | ⟨a, b, hab⟩)
      · exact ⟨[], b, by simp [hb]⟩
      · exact ⟨d :: a, b, by simp [hab]⟩
    · rintro ⟨a, b, hab⟩
      cases a with
      | nil => exact Or.inl ⟨b, by simpa using hab⟩
      | cons x xs =>
        simp only [List.cons_append, List.cons.injEq] at hab
        exact Or.inr ⟨xs, b, hab.2⟩

theorem containsSub_intro (hay pat : String) (a b : List Char)
    (h : hay.data = a ++ pat.data ++ b) : containsSub hay pat = true :=
  (listSub_iff _ _).2 ⟨a, b, h⟩

theorem containsSub_trans (a b c : String) (h1 : containsSub b c = true)
    (h2 : containsSub a b = true) : containsSub a c = true := by
  obtain ⟨x, y, hxy⟩ := (listSub_iff _ _).1 h1
  obtain ⟨u, v, huv⟩ := (listSub_iff _ _).1 h2
  refine (listSub_iff _ _).2 ⟨u ++ x, y ++ v, ?_⟩
  simp [huv, hxy]

theorem strJoin_split {l : List String} {x : String} (hx : x ∈ l) :
    ∃ a b, strJoin l = a ++ x ++ b := by
  induction l with
  | nil => cases hx
  | cons s r ih =>
    rcases List.mem_cons.1 hx with rfl | hx2
    · exact ⟨"", strJoin r, by simp [strJoin]⟩
    · obtain ⟨a, b, hab⟩ := ih hx2
      refine ⟨s ++ a, b, ?_⟩
      simp only [strJoin, hab, strAppend_assoc]

/-! ### Collection-loop invariants -/

theorem cpCollect_mem (t : Int) (ps : List CPPost) :
    ∀ acc x, x ∈ cpCollect t ps acc → x ∈ acc ∨ t ≤ x.published := by
  induction ps with
  | nil => intro acc x hx; exact Or.inl (by simpa [cpCollect] using hx)
  | cons p ps ih =>
    intro acc x hx
    obtain ⟨pa, pt, pu⟩ := p
    cases pa with
    | none => simp only [cpCollect] at hx; exact Or.inl hx
    | some pub =>
      by_cases hle : t ≤ pub
      · cases pt with
        | none => simp only [cpCollect, if_pos hle] at hx; exact Or.inl hx
        | some ti =>
          cases pu with
          | none => simp only [cpCollect, if_pos hle] at hx; exact Or.inl hx
          | some u =>
            simp only [cpCollect, if_pos hle] at hx
            rcases ih _ x hx with h | h
            · rcases List.mem_append.1 h with h | h
              · exact Or.inl h
              · rcases List.mem_singleton.1 h with rfl
                exact Or.inr hle
            · exact Or.inr h
      · simp only [cpCollect, if_neg hle] at hx
        exact ih _ x hx

theorem rssCollect_mem (name : String) (t : Int) (es : List RSSEntry) :
    ∀ acc x, x ∈ rssCollect name t es acc → x ∈ acc ∨ t ≤ x.published := by
  induction es with
  | nil => intro acc x hx; exact Or.inl (by simpa [rssCollect] using hx)
  | cons e es ih =>
    intro acc x hx
    obtain ⟨pp, ti, li⟩ := e
    cases pp with
    | none => simp only [rssCollect] at hx; exact ih _ x hx
    | some pub =>
      by_cases hle : t ≤ pub
      · simp only [rssCollect, if_pos hle] at hx
        rcases ih _ x hx with h | h
        · rcases List.mem_append.1 h with h | h
          · exact Or.inl h
          · rcases List.mem_singleton.1 h with rfl
            exact Or.inr hle
        · exact Or.inr h
      · simp only [rssCollect, if_neg hle] at hx
        exact ih _ x hx

theorem rssStep_mem (t : Int) (acc : List NewsItem) (f : String × RSSResp) :
    ∀ x, x ∈ rssStep t acc f → x ∈ acc ∨ t ≤ x.published := by
  intro x hx
  obtain ⟨name, r⟩ := f
  cases r with
  | fail => exact Or.inl hx
  | resp s es =>
    by_cases hs : s = 200
    · simp only [rssStep, if_pos hs] at hx
      exact rssCollect_mem name t es acc x hx
    · simp only [rssStep, if_neg hs] at hx
      exact Or.inl hx

theorem foldl_rssStep_mem (t : Int) (feeds : List (String × RSSResp)) :
    ∀ acc x, x ∈ feeds.foldl (rssStep t) acc → x ∈ acc ∨ t ≤ x.published := by
  induction feeds with
  | nil => intro acc x hx; exact Or.inl hx
  | cons f fs ih =>
    intro acc x hx
    rcases ih (rssStep t acc f) x hx with h | h
    · exact rssStep_mem t acc f x h
    · exact Or.inr h

theorem cpNews_mem (t : Int) (cp : CPResp) :
    ∀ x, x ∈ cpNews t cp → t ≤ x.published := by
  intro x hx
  cases cp with
  | fail => cases hx
  | resp s posts =>
    by_cases hs : s = 200
    · simp only [cpNews, if_pos hs] at hx
      rcases cpCollect_mem t posts [] x hx with h | h
      · cases h
      · exact h
    · simp only [cpNews, if_neg hs] at hx
      cases hx

theorem collectNews_mem (now : Int) (cp : CPResp) (feeds : List (String × RSSResp)) :
    ∀ x, x ∈ collectNews now cp feeds → now - 86400 ≤ x.published := by
  intro x hx
  rcases foldl_rssStep_mem (now - 86400) feeds _ x hx with h | h
  · exact cpNews_mem _ cp x h
  · exact h

/-! ### Claim theorems -/

/-- C1: whenever the market-data request raises, times out, or completes
with a non-200 status, `get_current_prices` returns the fallback mapping:
every one of the seven configured symbols (and no other key) maps to
price `"N/A"` with change `0`; in particular the failure result never
covers only a strict subset of the configured symbols, and the embedded
function is total (all failures are caught). -/
theorem C1_price_fallback (r : PriceResp)
    (h : r = PriceResp.fail ∨ ∃ s d, r = PriceResp.resp s d ∧ s ≠ 200) :
    get_current_prices r = fallbackPrices ∧
    (get_current_prices r).map Prod.fst = SUPPORTED_COINS ∧
    ∀ p ∈ get_current_prices r, p.2 = ⟨JVal.str "N/A", ⟨0, 0⟩⟩ := by
  have hfb : get_current_prices r = fallbackPrices := by
    rcases h with rfl | ⟨s, d, rfl, hs⟩
    · rfl
    · simp [get_current_prices, if_neg hs]
  refine ⟨hfb, ?_, ?_⟩
  · rw [hfb]; decide
  · rw [hfb]; decide

/-- C1 witness: the fallback result at a concrete failing input (an
exception outcome). -/
theorem C1_witness :
    get_current_prices PriceResp.fail = fallbackPrices ∧
    (get_current_prices PriceResp.fail).map Prod.fst = SUPPORTED_COINS ∧
    ∀ p ∈ get_current_prices PriceResp.fail, p.2 = ⟨JVal.str "N/A", ⟨0, 0⟩⟩ :=
  C1_price_fallback PriceResp.fail (Or.inl rfl)

/-- C2: every list returned by `fetch_news` has length at most 20, is
sorted descending by the `published` field, and only contains items
published within the 24-hour window ending at the `now` captured at the
start of the call. -/
theorem C2_fetch_news_invariants (now : Int) (cp : CPResp) (feeds : List (String × RSSResp)) :
    (fetch_news now cp feeds).length ≤ 20 ∧
    (fetch_news now cp feeds).Pairwise pubDesc ∧
    ∀ x ∈ fetch_news now cp feeds, now - 86400 ≤ x.published := by
  refine ⟨?_, ?_, ?_⟩
  · exact List.length_take_le 20 _
  · exact (List.sorted_insertionSort pubDesc _).sublist (List.take_sublist _ _)
  · intro x hx
    have hx2 : x ∈ List.insertionSort pubDesc (collectNews now cp feeds) :=
      (List.take_sublist _ _).mem hx
    have hx3 : x ∈ collectNews now cp feeds :=
      (List.perm_insertionSort pubDesc _).mem_iff.1 hx2
    exact collectNews_mem now cp feeds x hx3

/-- C2 witness: the invariants instantiated at a concrete call with one
aggregator item and one failed feed. -/
theorem C2_witness :
    (fetch_news 100000 (CPResp.resp 200 [⟨some 90000, some "A", some "a"⟩])
        [("CoinDesk", RSSResp.fail)]).length ≤ 20 ∧
    (fetch_news 100000 (CPResp.resp 200 [⟨some 90000, some "A", some "a"⟩])
        [("CoinDesk", RSSResp.fail)]).Pairwise pubDesc ∧
    ∀ x ∈ fetch_news 100000 (CPResp.resp 200 [⟨some 90000, some "A", some "a"⟩])
        [("CoinDesk", RSSResp.fail)], (100000 : Int) - 86400 ≤ x.published :=
  C2_fetch_news_invariants 100000 (CPResp.resp 200 [⟨some 90000, some "A", some "a"⟩])
    [("CoinDesk", RSSResp.fail)]

theorem foldl_rssStep_all_fail (t : Int) (feeds : List (String × RSSResp)) :
    ∀ acc, (∀ f ∈ feeds, f.2 = RSSResp.fail) → feeds.foldl (rssStep t) acc = acc := by
  induction feeds with
  | nil => intro acc _; rfl
  | cons f fs ih =>
    intro acc h
    have hf : f.2 = RSSResp.fail := h f (List.mem_cons_self f fs)
    have hstep : rssStep t acc f = acc := by
      obtain ⟨name, r⟩ := f
      cases hf
      rfl
    rw [List.foldl_cons, hstep]
    exact ih acc (fun g hg => h g (List.mem_cons_of_mem f hg))

/-- C3: `fetch_news` is failure-isolating: (i) if the aggregator request
and every RSS feed fail, the result is the empty list (and the embedded
function is total, so it never raises); (ii) one failed RSS source
contributes nothing while leaving every other source's items unchanged;
(iii) a failed aggregator request behaves exactly like an aggregator
response with zero results. -/
theorem C3_failure_isolation (now : Int) (cp : CPResp) (feeds l1 l2 : List (String × RSSResp))
    (n : String) :
    ((∀ f ∈ feeds, f.2 = RSSResp.fail) → fetch_news now CPResp.fail feeds = []) ∧
    fetch_news now cp (l1 ++ (n, RSSResp.fail) :: l2) = fetch_news now cp (l1 ++ l2) ∧
    fetch_news now CPResp.fail feeds = fetch_news now (CPResp.resp 200 []) feeds := by
  refine ⟨?_, ?_, ?_⟩
  · intro h
    have : collectNews now CPResp.fail feeds = [] := by
      simpa [collectNews, cpNews] using foldl_rssStep_all_fail (now - 86400) feeds [] h
    simp [fetch_news, this]
  · have : collectNews now cp (l1 ++ (n, RSSResp.fail) :: l2) = collectNews now cp (l1 ++ l2) := by
      simp only [collectNews, List.foldl_append, List.foldl_cons]
      rfl
    simp [fetch_news, this]
  · have : collectNews now CPResp.fail feeds = collectNews now (CPResp.resp 200 []) feeds := by
      simp [collectNews, cpNews, cpCollect]
    simp [fetch_news, this]

/-- C3 witness: with the aggregator and all five configured RSS feeds
failing, the concrete call returns the empty list, and dropping a failed
feed does not change the result. -/
theorem C3_witness :
    fetch_news 100000 CPResp.fail
      [("CoinDesk", RSSResp.fail), ("CoinTelegraph", RSSResp.fail), ("Decrypt", RSSResp.fail),
       ("Binance", RSSResp.fail), ("Coinbase", RSSResp.fail)] = [] ∧
    fetch_news 100000 CPResp.fail ([] ++ ("CoinDesk", RSSResp.fail) :: []) =
      fetch_news 100000 CPResp.fail ([] ++ []) :=
  ⟨(C3_failure_isolation 100000 CPResp.fail
      [("CoinDesk", RSSResp.fail), ("CoinTelegraph", RSSResp.fail), ("Decrypt", RSSResp.fail),
       ("Binance", RSSResp.fail), ("Coinbase", RSSResp.fail)] [] [] "CoinDesk").1
      (by decide),
   (C3_failure_isolation 100000 CPResp.fail [] [] [] "CoinDesk").2.1⟩

/-- C4 counterexample: in a single 200 aggregator response, the item
`C` is well-formed and recent (its parsed `published_at` of `95000` lies
within the 24-hour window of `now = 100000`), yet it is absent from the
result because the preceding item lacks its `title` field: the raised
`KeyError` aborts the whole batch, contradicting the claim that the
remaining items of the response are still processed. -/
theorem C4_counterexample :
    (⟨"C", "c.com", "CryptoPanic", 95000⟩ : NewsItem) ∉
      fetch_news 100000 (CPResp.resp 200
        [⟨some 90000, some "A", some "a.com"⟩,
         ⟨some 90000, none, some "b.com"⟩,
         ⟨some 95000, some "C", some "c.com"⟩]) [] ∧
    (100000 : Int) - 86400 ≤ 95000 ∧
    (⟨"A", "a.com", "CryptoPanic", 90000⟩ : NewsItem) ∈
      fetch_news 100000 (CPResp.resp 200
        [⟨some 90000, some "A", some "a.com"⟩,
         ⟨some 90000, none, some "b.com"⟩,
         ⟨some 95000, some "C", some "c.com"⟩]) [] := by
  refine ⟨?_, by decide, by decide⟩
  decide

/-- C4 (amended): in an aggregator-API batch, a well-formed item is kept
iff its parsed timestamp is within the 24-hour window (soundness holds:
every produced item is recent), but an item missing a required field does
not merely skip itself — the raised exception ends processing of that
response, so the batch result is exactly the result of the prefix before
the malformed item (items appended before it survive; items after it are
dropped). -/
theorem C4_cp_batch_abort (t : Int) (p : CPPost) (l1 l2 : List CPPost) (acc : List NewsItem)
    (hbad : p.published_at = none ∨
      ∃ pub, p.published_at = some pub ∧ t ≤ pub ∧ (p.title = none ∨ p.url = none)) :
    cpCollect t (l1 ++ p :: l2) acc = cpCollect t l1 acc ∧
    ∀ x ∈ cpCollect t (l1 ++ p :: l2) acc, x ∈ acc ∨ t ≤ x.published := by
  constructor
  · induction l1 generalizing acc with
    | nil =>
      obtain ⟨pa, pt, pu⟩ := p
      rcases hbad with h | ⟨pub, hpa, hle, hbad2⟩
      · cases h
        rfl
      · cases hpa
        rcases hbad2 with h | h
        · cases h
          simp only [List.nil_append, cpCollect, if_pos hle]
        · cases h
          simp only [List.nil_append, cpCollect, if_pos hle]
    | cons q l1 ih =>
      obtain ⟨qa, qt, qu⟩ := q
      cases qa with
      | none => simp only [List.cons_append, cpCollect]
      | some pub =>
        by_cases hle : t ≤ pub
        · cases qt with
          | none => simp only [List.cons_append, cpCollect, if_pos hle]
          | some ti =>
            cases qu with
            | none => simp only [List.cons_append, cpCollect, if_pos hle]
            | some u =>
              simp only [List.cons_append, cpCollect, if_pos hle]
              exact ih _
        · simp only [List.cons_append, cpCollect, if_neg hle]
          exact ih _
  · exact cpCollect_mem t (l1 ++ p :: l2) acc

/-- C4 witness: the amended statement applied at the concrete aborting
batch of the counterexample. -/
theorem C4_witness :
    cpCollect 13600 ([⟨some 90000, some "A", some "a.com"⟩] ++
        (⟨some 90000, none, some "b.com"⟩ : CPPost) ::
        [⟨some 95000, some "C", some "c.com"⟩]) [] =
      cpCollect 13600 [⟨some 90000, some "A", some "a.com"⟩] [] ∧
    ∀ x ∈ cpCollect 13600 ([⟨some 90000, some "A", some "a.com"⟩] ++
        (⟨some 90000, none, some "b.com"⟩ : CPPost) ::
        [⟨some 95000, some "C", some "c.com"⟩]) [],
      x ∈ ([] : List NewsItem) ∨ (13600 : Int) ≤ x.published :=
  C4_cp_batch_abort 13600 ⟨some 90000, none, some "b.com"⟩
    [⟨some 90000, some "A", some "a.com"⟩] [⟨some 95000, some "C", some "c.com"⟩] []
    (Or.inr ⟨90000, rfl, by decide, Or.inl rfl⟩)

/-- C5: a scheduler tick sends nothing when the local (UTC+1) hour is
outside the 07:00-21:00 window; inside the window it sends exactly one
message rendered from the first three sub-4-hour items when at least one
exists, and nothing when none does.  The embedded tick is a total
function (the whole body sits in `try/except`), so no exception
propagates out of a tick. -/
theorem C5_scheduler_tick (nowUtc : Int) (cp : CPResp) (feeds : List (String × RSSResp))
    (pr : PriceResp) :
    (¬ (7 ≤ localHourOf nowUtc ∧ localHourOf nowUtc ≤ 21) →
      send_scheduled_news nowUtc cp feeds pr = []) ∧
    (7 ≤ localHourOf nowUtc ∧ localHourOf nowUtc ≤ 21 →
      hotFilter nowUtc (fetch_news nowUtc cp feeds) ≠ [] →
      send_scheduled_news nowUtc cp feeds pr =
        [⟨(hotFilter nowUtc (fetch_news nowUtc cp feeds)).take 3,
          digestMessage nowUtc ((hotFilter nowUtc (fetch_news nowUtc cp feeds)).take 3)
            (get_current_prices pr)⟩] ∧
      ((hotFilter nowUtc (fetch_news nowUtc cp feeds)).take 3).length ≤ 3) ∧
    (7 ≤ localHourOf nowUtc ∧ localHourOf nowUtc ≤ 21 →
      hotFilter nowUtc (fetch_news nowUtc cp feeds) = [] →
      send_scheduled_news nowUtc cp feeds pr = []) := by
  refine ⟨?_, ?_, ?_⟩
  · intro h
    simp only [send_scheduled_news, if_neg h]
  · intro hw hne
    constructor
    · simp only [send_scheduled_news, if_pos hw, if_neg hne]
    · exact List.length_take_le 3 _
  · intro hw he
    simp only [send_scheduled_news, if_pos hw, he, if_pos]

/-- C5 witness: at local hour 22 (21:00 UTC) a tick sends nothing even
with a hot item available; at local hour 10 with one sub-4-hour item the
tick sends exactly one message built from at most three items. -/
theorem C5_witness :
    send_scheduled_news 75600 (CPResp.resp 200 [⟨some 75000, some "T", some "L"⟩]) []
      PriceResp.fail = [] ∧
    (send_scheduled_news 32400 (CPResp.resp 200 [⟨some 32000, some "T", some "L"⟩]) []
        PriceResp.fail =
      [⟨(hotFilter 32400 (fetch_news 32400
            (CPResp.resp 200 [⟨some 32000, some "T", some "L"⟩]) [])).take 3,
        digestMessage 32400 ((hotFilter 32400 (fetch_news 32400
            (CPResp.resp 200 [⟨some 32000, some "T", some "L"⟩]) [])).take 3)
          (get_current_prices PriceResp.fail)⟩] ∧
      ((hotFilter 32400 (fetch_news 32400
          (CPResp.resp 200 [⟨some 32000, some "T", some "L"⟩]) [])).take 3).length ≤ 3) :=
  ⟨(C5_scheduler_tick 75600 (CPResp.resp 200 [⟨some 75000, some "T", some "L"⟩]) []
      PriceResp.fail).1 (by decide),
   (C5_scheduler_tick 32400 (CPResp.resp 200 [⟨some 32000, some "T", some "L"⟩]) []
      PriceResp.fail).2.1 (by decide) (by decide)⟩

/-- C7: per RSS feed, the collected items are exactly the dated entries
within the 24-hour window — an entry with no `published_parsed` field
contributes nothing (it is never assumed recent), and every produced
item carries a parsed date within the window. -/
theorem C7_rss_undatable_excluded (name : String) (t : Int) (es : List RSSEntry)
    (acc : List NewsItem) :
    rssCollect name t es acc = acc ++ es.filterMap (fun e =>
      match e.published_parsed with
      | none => none
      | some pub => if t ≤ pub then some ⟨e.title, e.link, name, pub⟩ else none) ∧
    ∀ x ∈ rssCollect name t es [], ∃ e ∈ es, e.published_parsed = some x.published ∧
      t ≤ x.published := by
  have key : ∀ (es : List RSSEntry) (acc : List NewsItem),
      rssCollect name t es acc = acc ++ es.filterMap (fun e =>
        match e.published_parsed with
        | none => none
        | some pub => if t ≤ pub then some ⟨e.title, e.link, name, pub⟩ else none) := by
    intro es
    induction es with
    | nil => intro acc; simp [rssCollect]
    | cons e es ih =>
      intro acc
      obtain ⟨pp, ti, li⟩ := e
      cases pp with
      | none => simpa [rssCollect, List.filterMap_cons] using ih acc
      | some pub =>
        by_cases hle : t ≤ pub
        · simp only [rssCollect, if_pos hle, List.filterMap_cons, ih, List.append_assoc,
            List.singleton_append]
        · simp only [rssCollect, if_neg hle, List.filterMap_cons, ih]
  refine ⟨key es acc, ?_⟩
  intro x hx
  rw [key es [], List.nil_append] at hx
  obtain ⟨e, he, hfe⟩ := List.mem_filterMap.1 hx
  cases hpp : e.published_parsed with
  | none => rw [hpp] at hfe; cases hfe
  | some pub =>
    rw [hpp] at hfe
    dsimp only at hfe
    by_cases hle : t ≤ pub
    · rw [if_pos hle] at hfe
      cases hfe
      exact ⟨e, he, hpp, hle⟩
    · rw [if_neg hle] at hfe
      cases hfe

/-- C7 witness: the characterisation applied at a concrete feed whose
second entry lacks a parsed date and is excluded. -/
theorem C7_witness :
    rssCollect "CoinDesk" 13600
      [⟨some 90000, "R", "r"⟩, ⟨none, "X", "x"⟩, ⟨some 5, "Old", "o"⟩] [] =
      [] ++ [⟨some 90000, "R", "r"⟩, (⟨none, "X", "x"⟩ : RSSEntry),
        ⟨some 5, "Old", "o"⟩].filterMap (fun e =>
        match e.published_parsed with
        | none => none
        | some pub => if (13600 : Int) ≤ pub then
            some ⟨e.title, e.link, "CoinDesk", pub⟩ else none) ∧
    ∀ x ∈ rssCollect "CoinDesk" 13600
      [⟨some 90000, "R", "r"⟩, ⟨none, "X", "x"⟩, ⟨some 5, "Old", "o"⟩] [],
      ∃ e ∈ [⟨some 90000, "R", "r"⟩, (⟨none, "X", "x"⟩ : RSSEntry), ⟨some 5, "Old", "o"⟩],
        e.published_parsed = some x.published ∧ (13600 : Int) ≤ x.published :=
  C7_rss_undatable_excluded "CoinDesk" 13600
    [⟨some 90000, "R", "r"⟩, ⟨none, "X", "x"⟩, ⟨some 5, "Old", "o"⟩] []

/-- C8 counterexample: a successful 200 market-data response in which
the `bitcoin` entry lacks its `usd` field while the `ethereum` entry is
complete.  The claim predicts that only BTC is skipped and ETH's price
(100, change 2) is still returned; in fact the `KeyError` on
`coin_data["usd"]` is caught by the function-level handler and the whole
call returns the all-`"N/A"` fallback, discarding ETH's data too. -/
theorem C8_counterexample :
    get_current_prices (PriceResp.resp 200
      [("bitcoin", ⟨none, some ⟨1, 0⟩⟩), ("ethereum", ⟨some ⟨100, 0⟩, some ⟨2, 0⟩⟩)]) =
      fallbackPrices ∧
    (get_current_prices (PriceResp.resp 200
      [("bitcoin", ⟨none, some ⟨1, 0⟩⟩), ("ethereum", ⟨some ⟨100, 0⟩, some ⟨2, 0⟩⟩)])).lookup
        "ETH" = some ⟨JVal.str "N/A", ⟨0, 0⟩⟩ := by
  constructor
  · decide
  · decide

/-- C8 (amended): a response coin id absent from the configured mapping
is skipped on its own, and a present-but-missing `usd_24h_change` field
defaults to change `0`; but a mapped coin entry lacking the `usd` field
raises, so the whole call falls back to the all-`"N/A"` mapping instead
of skipping just that coin. -/
theorem C8_missing_usd_fallback (l1 l2 : List (String × CoinEntry)) (cid sym : String)
    (cd : CoinEntry) (hmap : coin_mapping.lookup cid = some sym) (husd : cd.usd = none) :
    (∀ acc, buildPrices (l1 ++ (cid, cd) :: l2) acc = none) ∧
    get_current_prices (PriceResp.resp 200 (l1 ++ (cid, cd) :: l2)) = fallbackPrices ∧
    (∀ cid2 cd2 rest acc, coin_mapping.lookup cid2 = none →
      buildPrices ((cid2, cd2) :: rest) acc = buildPrices rest acc) ∧
    (∀ cid2 sym2 p rest acc (cd2 : CoinEntry), coin_mapping.lookup cid2 = some sym2 →
      cd2.usd = some p → cd2.usd_24h_change = none →
      buildPrices ((cid2, cd2) :: rest) acc =
        buildPrices rest (acc ++ [(sym2, ⟨JVal.num p, ⟨0, 0⟩⟩)])) := by
  have key : ∀ acc, buildPrices (l1 ++ (cid, cd) :: l2) acc = none := by
    induction l1 with
    | nil => intro acc; simp only [List.nil_append, buildPrices, hmap, husd]
    | cons f l1 ih =>
      intro acc
      obtain ⟨c0, d0⟩ := f
      simp only [List.cons_append, buildPrices]
      cases hl : coin_mapping.lookup c0 with
      | none => exact ih acc
      | some s0 =>
        cases hu : d0.usd with
        | none => rfl
        | some p => exact ih _
  refine ⟨key, ?_, ?_, ?_⟩
  · simp [get_current_prices, key]
  · intro cid2 cd2 rest acc h
    simp only [buildPrices, h]
  · intro cid2 sym2 p rest acc cd2 h1 h2 h3
    simp only [buildPrices, h1, h2, h3, Option.getD_none]

/-- C8 witness: the amended statement at the counterexample's concrete
response. -/
theorem C8_witness :
    buildPrices ([("ethereum", ⟨some ⟨100, 0⟩, some ⟨2, 0⟩⟩)] ++
      ("bitcoin", (⟨none, some ⟨1, 0⟩⟩ : CoinEntry)) :: []) [] = none ∧
    get_current_prices (PriceResp.resp 200
      ([("ethereum", ⟨some ⟨100, 0⟩, some ⟨2, 0⟩⟩)] ++
        ("bitcoin", (⟨none, some ⟨1, 0⟩⟩ : CoinEntry)) :: [])) = fallbackPrices :=
  ⟨(C8_missing_usd_fallback [("ethereum", ⟨some ⟨100, 0⟩, some ⟨2, 0⟩⟩)] [] "bitcoin" "BTC"
      ⟨none, some ⟨1, 0⟩⟩ rfl rfl).1 [],
   (C8_missing_usd_fallback [("ethereum", ⟨some ⟨100, 0⟩, some ⟨2, 0⟩⟩)] [] "bitcoin" "BTC"
      ⟨none, some ⟨1, 0⟩⟩ rfl rfl).2.1⟩

theorem digitChar_ne_minus (d : Nat) : digitChar d ≠ '-' := by
  unfold digitChar
  split_ifs <;> decide

theorem natStrGo_chars (fuel : Nat) : ∀ (n : Nat) (acc : List Char) (c : Char),
    c ∈ natStrGo fuel n acc → c ∈ acc ∨ ∃ d, c = digitChar d := by
  induction fuel with
  | zero => intro n acc c hc; exact Or.inl hc
  | succ fuel ih =>
    intro n acc c hc
    simp only [natStrGo] at hc
    by_cases h : n < 10
    · rw [if_pos h] at hc
      rcases List.mem_cons.1 hc with rfl | hc2
      · exact Or.inr ⟨n, rfl⟩
      · exact Or.inl hc2
    · rw [if_neg h] at hc
      rcases ih _ _ c hc with h2 | h2
      · rcases List.mem_cons.1 h2 with rfl | h3
        · exact Or.inr ⟨n % 10, rfl⟩
        · exact Or.inl h3
      · exact Or.inr h2

theorem natStr_no_minus (n : Nat) : '-' ∉ (natStr n).data := by
  intro h
  rcases natStrGo_chars (n + 1) n [] '-' h with h2 | ⟨d, hd⟩
  · cases h2
  · exact digitChar_ne_minus d hd.symm

theorem pad2_no_minus (n : Nat) : '-' ∉ (pad2 n).data := by
  intro h
  unfold pad2 at h
  split_ifs at h
  · rw [String.data_append] at h
    rcases List.mem_append.1 h with h2 | h2
    · exact absurd h2 (by decide)
    · exact natStr_no_minus n h2
  · exact natStr_no_minus n h

theorem fmt2f_nonneg_no_minus (x : DecNum) (hx : 0 ≤ x.mant) : '-' ∉ (fmt2f x).data := by
  intro h
  unfold fmt2f at h
  rw [if_neg (Int.not_lt.2 hx)] at h
  simp only [String.data_append] at h
  rcases List.mem_append.1 h with h2 | h2
  · rcases List.mem_append.1 h2 with h3 | h3
    · rcases List.mem_append.1 h3 with h4 | h4
      · exact absurd h4 (by decide)
      · exact natStr_no_minus _ h4
    · exact absurd h3 (by decide)
  · exact pad2_no_minus _ h2

/-- C10: `format_price_change` is total, returns the empty string on a
non-numeric input, and on a numeric input returns the up icon for a
nonnegative change and the down icon for a negative one, followed by the
absolute value formatted to two decimals and a percent sign — in
particular the rendered text of a numeric change never contains a minus
sign, the direction being conveyed only by the icon. -/
theorem C10_format_price_change_spec (v : DecNum) (s : String) :
    format_price_change (JVal.str s) = "" ∧
    format_price_change (JVal.num v) =
      (if 0 ≤ v.mant then "📈" else "📉") ++ " " ++ fmt2f (decAbs v) ++ "%" ∧
    '-' ∉ (format_price_change (JVal.num v)).data := by
  refine ⟨rfl, rfl, ?_⟩
  intro h
  simp only [format_price_change, String.data_append] at h
  rcases List.mem_append.1 h with h2 | h2
  · rcases List.mem_append.1 h2 with h3 | h3
    · rcases List.mem_append.1 h3 with h4 | h4
      · split_ifs at h4 <;> exact absurd h4 (by decide)
      · exact absurd h4 (by decide)
    · exact fmt2f_nonneg_no_minus (decAbs v) (Int.natCast_nonneg _) h3
  · exact absurd h2 (by decide)

/-- C10 witness: a negative change rendered with the down icon and no
minus sign, and a non-numeric input rendered as the empty string. -/
theorem C10_witness :
    format_price_change (JVal.str "N/A") = "" ∧
    '-' ∉ (format_price_change (JVal.num ⟨-123, 2⟩)).data :=
  ⟨(C10_format_price_change_spec ⟨-123, 2⟩ "N/A").1,
   (C10_format_price_change_spec ⟨-123, 2⟩ "N/A").2.2⟩

theorem containsSub_refl (pat : String) : containsSub pat pat = true :=
  containsSub_intro pat pat [] [] (by simp)

theorem containsSub_appendL (a b pat : String) (h : containsSub b pat = true) :
    containsSub (a ++ b) pat = true := by
  obtain ⟨x, y, hxy⟩ := (listSub_iff _ _).1 h
  refine (listSub_iff _ _).2 ⟨a.data ++ x, y, ?_⟩
  simp [String.data_append, hxy]

theorem containsSub_appendR (a b pat : String) (h : containsSub a pat = true) :
    containsSub (a ++ b) pat = true := by
  obtain ⟨x, y, hxy⟩ := (listSub_iff _ _).1 h
  refine (listSub_iff _ _).2 ⟨x, y ++ b.data, ?_⟩
  simp [String.data_append, hxy]

theorem containsSub_of_split (hay pat pre post : String) (h : hay = pre ++ pat ++ post) :
    containsSub hay pat = true := by
  subst h
  exact containsSub_appendR _ _ _ (containsSub_appendL _ _ _ (containsSub_refl pat))

theorem newsLine_contains_title (nowUtc : Int) (i : Nat) (it : NewsItem) :
    containsSub (newsLine nowUtc i it) it.title = true := by
  unfold newsLine
  apply containsSub_appendR
  apply containsSub_appendR
  apply containsSub_appendR
  apply containsSub_appendR
  apply containsSub_appendR
  apply containsSub_appendR
  apply containsSub_appendR
  apply containsSub_appendL
  exact containsSub_refl _

theorem newsLine_label_relative (nowUtc : Int) (i : Nat) (it : NewsItem)
    (h : hoursAgo nowUtc it.published < 24) :
    containsSub (newsLine nowUtc i it)
      (intStr (hoursAgo nowUtc it.published) ++ " ч. назад") = true := by
  unfold newsLine timeLabel
  rw [if_pos h]
  apply containsSub_appendR
  apply containsSub_appendL
  exact containsSub_refl _

theorem newsLine_label_absolute (nowUtc : Int) (i : Nat) (it : NewsItem)
    (h : ¬ hoursAgo nowUtc it.published < 24) :
    containsSub (newsLine nowUtc i it) (dateDMY it.published) = true := by
  unfold newsLine timeLabel
  rw [if_neg h]
  apply containsSub_appendR
  apply containsSub_appendL
  exact containsSub_refl _

theorem digestLines_contains_line (nowUtc : Int) (items : List NewsItem) (z : Nat × NewsItem)
    (hz : z ∈ enumFrom1 1 items) :
    containsSub (digestLines nowUtc items) (newsLine nowUtc z.1 z.2) = true := by
  obtain ⟨a, b, hab⟩ := strJoin_split (List.mem_map.2 ⟨z, hz, rfl⟩)
  exact containsSub_of_split _ _ a b hab

set_option maxRecDepth 8192 in
/-- C6 counterexample: with BTC price 1.5 (and ETH 2.5, SOL 3.5), the
rendered 24h-report prompt does not contain the two-decimal rendering
"1.50" of the BTC price anywhere — the price is interpolated with plain
`str` as "1.5" (which the second conjunct shows is present); only the
24h change is formatted to two decimals.  This refutes the claim that
the prompt contains each tracked price formatted to two decimal
places. -/
theorem C6_counterexample :
    (promptFull 0 0
      [("BTC", ⟨JVal.num ⟨15, 1⟩, ⟨0, 0⟩⟩), ("ETH", ⟨JVal.num ⟨25, 1⟩, ⟨0, 0⟩⟩),
       ("SOL", ⟨JVal.num ⟨35, 1⟩, ⟨0, 0⟩⟩)] []).map (fun p => containsSub p "1.50") =
      some false ∧
    (promptFull 0 0
      [("BTC", ⟨JVal.num ⟨15, 1⟩, ⟨0, 0⟩⟩), ("ETH", ⟨JVal.num ⟨25, 1⟩, ⟨0, 0⟩⟩),
       ("SOL", ⟨JVal.num ⟨35, 1⟩, ⟨0, 0⟩⟩)] []).map (fun p => containsSub p "$1.5 (") =
      some true := by
  constructor
  · decide
  · decide

set_option maxRecDepth 8192 in
/-- C6 (amended): whenever the price mapping contains the three tracked
symbols, the rendered 24h-report prompt contains, verbatim, each of the
three price lines — the price interpolated by plain string conversion
(not forced to two decimals) together with its 24h change formatted to
two decimal places — and embeds the digest lines of the first 10 news
items in input order; each digest line contains its item's title
verbatim, an hours-ago label when fewer than 24 whole hours have
elapsed since publication, and an absolute `%d.%m.%Y` date otherwise. -/
theorem C6_full_prompt (nowLocal nowUtc : Int) (prices : List (String × PriceQuote))
    (news : List NewsItem) (b e s : PriceQuote)
    (hb : prices.lookup "BTC" = some b) (he : prices.lookup "ETH" = some e)
    (hs : prices.lookup "SOL" = some s) :
    promptFull nowLocal nowUtc prices news =
      some (promptFullBody nowLocal nowUtc b e s news) ∧
    containsSub (promptFullBody nowLocal nowUtc b e s news)
      (promptPriceLine "BTC" b) = true ∧
    containsSub (promptFullBody nowLocal nowUtc b e s news)
      (promptPriceLine "ETH" e) = true ∧
    containsSub (promptFullBody nowLocal nowUtc b e s news)
      (promptPriceLine "SOL" s) = true ∧
    (∃ pre post, promptFullBody nowLocal nowUtc b e s news =
      pre ++ digestLines nowUtc (news.take 10) ++ post) ∧
    (∀ z ∈ enumFrom1 1 (news.take 10),
      containsSub (promptFullBody nowLocal nowUtc b e s news) z.2.title = true) ∧
    (∀ z ∈ enumFrom1 1 (news.take 10),
      (hoursAgo nowUtc z.2.published < 24 →
        containsSub (newsLine nowUtc z.1 z.2)
          (intStr (hoursAgo nowUtc z.2.published) ++ " ч. назад") = true) ∧
      (¬ hoursAgo nowUtc z.2.published < 24 →
        containsSub (newsLine nowUtc z.1 z.2) (dateDMY z.2.published) = true)) := by
  have hsplit : ∃ pre post, promptFullBody nowLocal nowUtc b e s news =
      pre ++ digestLines nowUtc (news.take 10) ++ post := by
    refine ⟨"Ты профессиональный криптоаналитик. Сегодня " ++ dateDBY nowLocal ++ ". " ++
      "Актуальные цены на основные криптоактивы:\n" ++
      promptPriceLine "BTC" b ++ promptPriceLine "ETH" e ++ promptPriceLine "SOL" s ++ "\n" ++
      "Проанализируй САМЫЕ СВЕЖИЕ новости и дай краткий отчет ТОЛЬКО на основе последних 24 часов:\n\n" ++
      "📰 *Свежие новости за последние 24 часа:*\n\n",
      "\n\n" ++ "Структура отчета (максимум 300 слов):\n" ++
      "1. Основные рыночные тренды (на основе последних новостей)\n" ++
      "2. Влияние на BTC, ETH, SOL (с использованием реальных цен)\n" ++
      "3. Прогноз на ближайшие 24 часа (с учетом текущей ситуации)\n" ++
      "4. Торговые рекомендации (практические советы)\n\n" ++
      "Используй профессиональную лексику. Будь кратким и информативным. " ++
      "НЕ ИСПОЛЬЗУЙ устаревшие данные или исторические примеры старше 2024 года. " ++
      "Все цены и прогнозы должны соответствовать текущей рыночной ситуации.", ?_⟩
    apply strEq_of_data
    simp [promptFullBody, newsContext, String.data_append, List.append_assoc]
  have hbody : containsSub (promptFullBody nowLocal nowUtc b e s news)
      (digestLines nowUtc (news.take 10)) = true := by
    obtain ⟨pre, post, hpp⟩ := hsplit
    exact containsSub_of_split _ _ pre post hpp
  refine ⟨by simp only [promptFull, hb, he, hs], ?_, ?_, ?_, hsplit, ?_, ?_⟩
  · unfold promptFullBody
    apply containsSub_appendR; apply containsSub_appendR; apply containsSub_appendR
    apply containsSub_appendR; apply containsSub_appendR; apply containsSub_appendR
    apply containsSub_appendR; apply containsSub_appendR; apply containsSub_appendR
    apply containsSub_appendR; apply containsSub_appendR; apply containsSub_appendR
    apply containsSub_appendR; apply containsSub_appendR
    apply containsSub_appendL
    exact containsSub_refl _
  · unfold promptFullBody
    apply containsSub_appendR; apply containsSub_appendR; apply containsSub_appendR
    apply containsSub_appendR; apply containsSub_appendR; apply containsSub_appendR
    apply containsSub_appendR; apply containsSub_appendR; apply containsSub_appendR
    apply containsSub_appendR; apply containsSub_appendR; apply containsSub_appendR
    apply containsSub_appendR
    apply containsSub_appendL
    exact containsSub_refl _
  · unfold promptFullBody
    apply containsSub_appendR; apply containsSub_appendR; apply containsSub_appendR
    apply containsSub_appendR; apply containsSub_appendR; apply containsSub_appendR
    apply containsSub_appendR; apply containsSub_appendR; apply containsSub_appendR
    apply containsSub_appendR; apply containsSub_appendR; apply containsSub_appendR
    apply containsSub_appendL
    exact containsSub_refl _
  · intro z hz
    exact containsSub_trans _ _ _ (newsLine_contains_title nowUtc z.1 z.2)
      (containsSub_trans _ _ _ (digestLines_contains_line nowUtc (news.take 10) z hz) hbody)
  · intro z hz
    exact ⟨fun h => newsLine_label_relative nowUtc z.1 z.2 h,
      fun h => newsLine_label_absolute nowUtc z.1 z.2 h⟩

/-- C6 witness: the amended statement at a concrete input (BTC price
1.5, one news item), with the lookup hypotheses discharged by
evaluation. -/
theorem C6_witness :
    promptFull 0 0
      [("BTC", ⟨JVal.num ⟨15, 1⟩, ⟨0, 0⟩⟩), ("ETH", ⟨JVal.num ⟨25, 1⟩, ⟨0, 0⟩⟩),
       ("SOL", ⟨JVal.num ⟨35, 1⟩, ⟨0, 0⟩⟩)] [⟨"T", "L", "S", 0⟩] =
      some (promptFullBody 0 0 ⟨JVal.num ⟨15, 1⟩, ⟨0, 0⟩⟩ ⟨JVal.num ⟨25, 1⟩, ⟨0, 0⟩⟩
        ⟨JVal.num ⟨35, 1⟩, ⟨0, 0⟩⟩ [⟨"T", "L", "S", 0⟩]) ∧
    containsSub (promptFullBody 0 0 ⟨JVal.num ⟨15, 1⟩, ⟨0, 0⟩⟩ ⟨JVal.num ⟨25, 1⟩, ⟨0, 0⟩⟩
        ⟨JVal.num ⟨35, 1⟩, ⟨0, 0⟩⟩ [⟨"T", "L", "S", 0⟩])
      (promptPriceLine "BTC" ⟨JVal.num ⟨15, 1⟩, ⟨0, 0⟩⟩) = true :=
  ⟨(C6_full_prompt 0 0
      [("BTC", ⟨JVal.num ⟨15, 1⟩, ⟨0, 0⟩⟩), ("ETH", ⟨JVal.num ⟨25, 1⟩, ⟨0, 0⟩⟩),
       ("SOL", ⟨JVal.num ⟨35, 1⟩, ⟨0, 0⟩⟩)] [⟨"T", "L", "S", 0⟩] _ _ _ rfl rfl rfl).1,
   (C6_full_prompt 0 0
      [("BTC", ⟨JVal.num ⟨15, 1⟩, ⟨0, 0⟩⟩), ("ETH", ⟨JVal.num ⟨25, 1⟩, ⟨0, 0⟩⟩),
       ("SOL", ⟨JVal.num ⟨35, 1⟩, ⟨0, 0⟩⟩)] [⟨"T", "L", "S", 0⟩] _ _ _ rfl rfl rfl).2.1⟩

set_option maxRecDepth 8192 in
/-- C9: when at least one news item's title contains the coin symbol
case-insensitively, the single-coin prompt embeds exactly the digest
lines of the first five such items (the digest is built from
`news.filter (titleMentions coin)` truncated to 5, every one of which
mentions the coin), and the returned text is the price block followed by
the model response with the sources list of those items' links (at most
five) appended after it. -/
theorem C9_coin_digest_and_sources (nowLocal nowUtc : Int) (coin : String)
    (prices : List (String × PriceQuote)) (news : List NewsItem) (llm : String)
    (h : coinNewsOf coin news ≠ []) :
    (∃ pre post, promptCoin nowLocal nowUtc coin prices news =
      pre ++ digestLines nowUtc ((coinNewsOf coin news).take 5) ++ post) ∧
    coinNewsOf coin news = news.filter (titleMentions coin) ∧
    (∀ it ∈ (coinNewsOf coin news).take 5, titleMentions coin it = true) ∧
    ((coinNewsOf coin news).take 5).length ≤ 5 ∧
    (∃ pre2, generate_coin_analysis nowLocal nowUtc coin prices news llm =
      pre2 ++ llm ++ sourcesBlock (((coinNewsOf coin news).take 5).map NewsItem.link)) ∧
    (((coinNewsOf coin news).take 5).map NewsItem.link).length ≤ 5 := by
  have hlinks : ((coinNewsOf coin news).take 5).map NewsItem.link ≠ [] := by
    cases hcn : coinNewsOf coin news with
    | nil => exact absurd hcn h
    | cons a l => simp
  refine ⟨?_, rfl, ?_, List.length_take_le 5 _, ?_, ?_⟩
  · refine ⟨"Ты профессиональный криптоаналитик. Сегодня " ++ dateDBY nowLocal ++ ". " ++
      "Текущая цена " ++ coin ++ ": " ++ coinPriceStr (coinQuoteOf prices coin) ++
      " (изменение за 24ч: " ++ fmt2f (coinQuoteOf prices coin).change ++ "%)\n\n" ++
      "Проанализируй новости, связанные с " ++ coin ++
      ", и сделай прогноз на ближайшую неделю (" ++ dateDBY nowLocal ++ " - " ++
      dateDBY (nowLocal + 7 * 86400) ++ ").\n\n" ++
      "📰 *Свежие новости по " ++ coin ++ ":*\n\n",
      "\n\n" ++ "Структура отчета (максимум 300 слов):\n" ++
      "1. Ключевые события, влияющие на цену\n" ++
      "2. Технический анализ (тренды, уровни поддержки/сопротивления)\n" ++
      "3. Прогноз цены на неделю\n" ++
      "4. Рекомендации для трейдеров\n\n" ++
      "Будь конкретным и информативным. Используй только актуальные данные.", ?_⟩
    apply strEq_of_data
    simp [promptCoin, coinContext, if_neg h, String.data_append, List.append_assoc]
  · intro it hit
    have hmem : it ∈ coinNewsOf coin news := (List.take_sublist _ _).mem hit
    exact (List.mem_filter.1 (by simpa [coinNewsOf] using hmem)).2
  · refine ⟨"💰 *Текущая цена " ++ coin ++ ":* " ++ coinPriceStr (coinQuoteOf prices coin) ++
      " " ++ format_price_change (.num (coinQuoteOf prices coin).change) ++ "\n" ++ "\n", ?_⟩
    apply strEq_of_data
    simp [generate_coin_analysis, if_neg hlinks, if_neg h, String.data_append,
      List.append_assoc]
  · simp only [List.length_map]
    exact List.length_take_le 5 (coinNewsOf coin news)

/-- C9 witness: the statement at a concrete input with one matching item
(title "BTC surges" contains "btc" case-insensitively). -/
theorem C9_witness :
    (∃ pre post, promptCoin 0 0 "BTC" [] [⟨"BTC surges", "l", "S", 0⟩] =
      pre ++ digestLines 0 ((coinNewsOf "BTC" [⟨"BTC surges", "l", "S", 0⟩]).take 5) ++ post) ∧
    (∃ pre2, generate_coin_analysis 0 0 "BTC" [] [⟨"BTC surges", "l", "S", 0⟩] "A" =
      pre2 ++ "A" ++ sourcesBlock (((coinNewsOf "BTC"
        [⟨"BTC surges", "l", "S", 0⟩]).take 5).map NewsItem.link)) :=
  ⟨(C9_coin_digest_and_sources 0 0 "BTC" [] [⟨"BTC surges", "l", "S", 0⟩] "A" (by decide)).1,
   (C9_coin_digest_and_sources 0 0 "BTC" [] [⟨"BTC surges", "l", "S", 0⟩] "A"
      (by decide)).2.2.2.2.1⟩
